import Mathlib

/-!
Verification of the MiniPython front end and interpreter against its
specification.  The definitions below are shallow embeddings of the
Python sources: TP4.py (the Lark-based pipeline with the evaluator),
prgPythonPur.py (the pure-Python regex lexer and evaluator), and the
analysis-only variants analyse2.py and analyse_minipython.py.
-/

namespace MiniPython

/-- Arithmetic operators dispatched by eval_expr in TP4.py, lines 135-142. -/
inductive Op where
  | add | sub | mul | div
  deriving DecidableEq, Repr

/-- Comparison operators of the analyse2.py grammar (eq, ne, lt, gt). -/
inductive Cmp where
  | ceq | cne | clt | cgt
  deriving DecidableEq, Repr

/-- Expressions as the transformers build them: an integer literal
(NUMBER tokens are converted with the Python int constructor), a name
string (NAME and CNAME tokens become plain strings), or a tagged tuple
of an operator and two sub-expressions (analyse2.py lines 86-96). -/
inductive Expr where
  | num (n : Int)
  | var (s : String)
  | bin (o : Op) (l r : Expr)
  deriving Repr

/-- Statements of the AST lists the checkers and the evaluator walk.
sdecl, sassign and sprint carry the payloads of the tuples built by
SyntaxTransformer in TP4.py (lines 42-50); swhile models the while
tuple built by analyse2.py line 98, whose tag neither TP4 check nor
TP4 execute recognizes. -/
inductive Stmt where
  | sdecl (vars : List String)
  | sassign (target : String) (e : Expr)
  | sprint (name : String)
  | swhile (o : Cmp) (l r : Expr) (body : List Stmt)
  deriving Repr

/-- The symbol table: the dict self.symbol_table mapping a name to its
declared type, which is always the string "int"; modeled as an
insertion-ordered association list, as Python dicts preserve insertion
order. -/
abbrev Table := List (String × String)

/-- The key set of the symbol table, in insertion order. -/
def tableKeys (st : Table) : List String := st.map Prod.fst

/-- The two semantic errors raised by SemanticTransformer.check in
TP4.py: redeclared models the exception of line 76 (variable already
declared) and undeclaredVar the exceptions of lines 83 and 89
(variable not declared). -/
inductive SemErr where
  | redeclared (name : String)
  | undeclaredVar (name : String)
  deriving DecidableEq, Repr

/-- The Python str.isdigit test used at TP4.py line 88: true exactly on
nonempty all-digit strings (the inputs reaching it are ASCII). -/
def pyIsDigit (s : String) : Bool := !s.isEmpty && s.data.all Char.isDigit

/-- The declaration loop of TP4.py lines 74-77: insert each name in
order, raising on a name already present in the table. -/
def insertVars (st : Table) : List String → Except SemErr Table
  | [] => .ok st
  | v :: vs =>
    if v ∈ tableKeys st then .error (.redeclared v)
    else insertVars (st ++ [(v, "int")]) vs

/-- The new_ast.append step of the check loop: a statement that passed
its check is retained in front of whatever the rest of the loop
produces, and an error from the rest propagates. -/
def prependOk (s : Stmt) (r : Except SemErr (List Stmt × Table)) :
    Except SemErr (List Stmt × Table) :=
  match r with
  | .error e => .error e
  | .ok (l, t) => .ok (s :: l, t)

/-- SemanticTransformer.check of TP4.py lines 69-92, with the mutable
field self.symbol_table threaded explicitly as the first argument.
Returns the retained new_ast together with the final table.  The
assign case (lines 80-84) examines only the target name, never the
right-hand side expression; the print case (lines 86-90) accepts a
name that is in the table or is a digit string; a statement whose tag
matches none of the three cases is dropped silently (no branch of the
if-chain appends it and no error is raised). -/
def checkFrom (st : Table) : List Stmt → Except SemErr (List Stmt × Table)
  | [] => .ok ([], st)
  | .sdecl vars :: rest =>
    match insertVars st vars with
    | .error e => .error e
    | .ok st1 => prependOk (.sdecl vars) (checkFrom st1 rest)
  | .sassign x e :: rest =>
    if x ∈ tableKeys st then prependOk (.sassign x e) (checkFrom st rest)
    else .error (.undeclaredVar x)
  | .sprint n :: rest =>
    if n ∉ tableKeys st ∧ pyIsDigit n = false then .error (.undeclaredVar n)
    else prependOk (.sprint n) (checkFrom st rest)
  | .swhile _ _ _ _ :: rest => checkFrom st rest

/-- One full run of semantic analysis as the pipeline performs it
(TP4.py lines 194-195): a fresh SemanticTransformer, whose table
starts empty, applied to the AST. -/
def semCheck (ast : List Stmt) : Except SemErr (List Stmt × Table) :=
  checkFrom [] ast

/-- The runtime environment of TP4 execute: a dict from name to the
current numeric value.  Values live in the rationals: Python integers
embed exactly, and the true-division operator of line 142 produces the
exact quotient for every case evaluated here. -/
abbrev Env := List (String × ℚ)

/-- The key set of the runtime environment. -/
def envKeys (env : Env) : List String := env.map Prod.fst

/-- The Python int constructor applied to the strings reachable here:
succeeds exactly on nonempty all-digit strings, giving their value
(identifier strings never parse; signed or padded forms cannot arise
from NAME tokens). -/
def pyIntOfStr (s : String) : Option Int := s.toNat?.map Int.ofNat

/-- eval_expr of TP4.py lines 120-143.  An int evaluates to itself; a
string is looked up in the runtime and otherwise parsed as an int,
defaulting to 0 (lines 123-129); a tagged tuple evaluates both sides
and applies the operator, where division returns left / right when
right is nonzero and 0 otherwise (line 142).  Python true division
rounds to the nearest binary64 float; the div branch models it as the
exact rational quotient, which agrees with Python on every quotient a
theorem below evaluates (0 and 3.5, both exactly representable), and
no theorem below asserts the exact quotient for other operands. -/
def evalExpr (env : Env) : Expr → ℚ
  | .num n => (n : ℚ)
  | .var s =>
    match env.lookup s with
    | some v => v
    | none =>
      match pyIntOfStr s with
      | some n => (n : ℚ)
      | none => 0
  | .bin o l r =>
    let lv := evalExpr env l
    let rv := evalExpr env r
    match o with
    | .add => lv + rv
    | .sub => lv - rv
    | .mul => lv * rv
    | .div => if rv ≠ 0 then lv / rv else 0

/-- TP4.py line 118: the runtime starts as a dict with the symbol
table keys, every value 0. -/
def initEnv (st : Table) : Env := st.map fun p => (p.1, (0 : ℚ))

/-- The assignment store of TP4.py lines 149-150: the value is written
only when the target is already a key of the runtime, so the key set
never changes and an absent target leaves the runtime untouched. -/
def setIfPresent (x : String) (v : ℚ) (env : Env) : Env :=
  env.map fun p => if p.1 = x then (x, v) else p

/-- One iteration of the statement loop of TP4 execute, lines 145-155,
acting on the pair of runtime environment and emitted output list: an
assign evaluates its expression in the current runtime and stores it
under the target if present; a print evaluates its operand name with
eval_expr and appends the result to the output; every other statement,
declarations and while tuples included, matches neither branch of the
if-chain and is skipped. -/
def execStmt (s : Env × List ℚ) (stm : Stmt) : Env × List ℚ :=
  match stm with
  | .sassign x e => (setIfPresent x (evalExpr s.1 e) s.1, s.2)
  | .sprint n => (s.1, s.2 ++ [evalExpr s.1 (.var n)])
  | _ => s

/-- execute of TP4.py lines 117-155: fold the statement loop over the
AST from a given starting state. -/
def execStmts (ast : List Stmt) (s : Env × List ℚ) : Env × List ℚ :=
  ast.foldl execStmt s

/-- Runtime values of the prgPythonPur.py evaluator: Python objects
that are None before any assignment (line 130) and integers after. -/
abbrev PVal := Option Int

/-- The statement shapes prgPythonPur.py appends to its ast list
(lines 50, 64, 69): a declaration, an assignment (payload elided, see
prgExec), and a print of a variable name. -/
inductive PStmt where
  | pdecl (vars : List String)
  | passign (target : String)
  | pprint (name : String)
  deriving Repr

/-- prgPythonPur.py line 130: the runtime dict maps every symbol table
key to None. -/
def prgInitEnv (st : Table) : List (String × PVal) :=
  st.map fun p => (p.1, (none : Option Int))

/-- execute of prgPythonPur.py lines 129-143.  A Decl statement starts
with neither Assign nor Print and is skipped.  The Assign branch reads
stmt[2] (line 134) from the 2-element tuple built at line 64, which
raises IndexError on every assignment, so its payload is irrelevant
here.  Print looks the name up in the runtime (a missing key raises
KeyError) and emits the stored value, None included. -/
def prgExec : List PStmt → (List (String × PVal) × List PVal) →
    Except String (List (String × PVal) × List PVal)
  | [], s => .ok s
  | .pdecl _ :: rest, s => prgExec rest s
  | .passign _ :: _, _ => .error "IndexError"
  | .pprint v :: rest, (env, out) =>
    match env.lookup v with
    | some val => prgExec rest (env, out ++ [val])
    | none => .error "KeyError"

/-- Token kinds of the regex lexer of prgPythonPur.py lines 18-23, in
the order the alternatives appear in token_specification. -/
inductive TokKind where
  | number | int | print | id | comma | semicolon | plus | equal | lpar | rpar | skip
  deriving DecidableEq, Repr

/-- The Python word character class of the ID pattern tail: letters,
digits and underscore (ASCII, which covers every input here). -/
def isWordChar (c : Char) : Bool := c.isAlphanum || c = '_'

/-- The SKIP pattern character class: space, tab or newline. -/
def isSkipChar (c : Char) : Bool := c = ' ' || c = '\t' || c = '\n'

/-- Dropping a matched run never lengthens a list; used only to
justify termination of the scan below. -/
lemma dropWhile_length_le (p : Char → Bool) (cs : List Char) :
    (cs.dropWhile p).length ≤ cs.length := by
  induction cs with
  | nil => simp [List.dropWhile]
  | cons c cs ih =>
    simp only [List.dropWhile]
    split
    · exact Nat.le_succ_of_le ih
    · simp

/-- The scan of re.finditer over the alternation built at
prgPythonPur.py line 24.  At each position the alternatives are tried
in specification order, each matching greedily: a digit run, the
literal int, the literal print, an identifier, the six single-
character tokens, then a whitespace run; the literals int and print
match with no word boundary, exactly as the Python regex does.  When
no alternative matches at the current character, re.finditer silently
advances one position, which is the final branch: the character is
dropped and scanning continues. -/
def lexAux : List Char → List (TokKind × String)
  | [] => []
  | c :: cs =>
    if c.isDigit then
      (TokKind.number, String.mk (c :: cs.takeWhile Char.isDigit)) ::
        lexAux (cs.dropWhile Char.isDigit)
    else if c = 'i' ∧ cs.take 2 = ['n', 't'] then
      (TokKind.int, "int") :: lexAux (cs.drop 2)
    else if c = 'p' ∧ cs.take 4 = ['r', 'i', 'n', 't'] then
      (TokKind.print, "print") :: lexAux (cs.drop 4)
    else if c.isAlpha || c = '_' then
      (TokKind.id, String.mk (c :: cs.takeWhile isWordChar)) ::
        lexAux (cs.dropWhile isWordChar)
    else if c = ',' then (TokKind.comma, ",") :: lexAux cs
    else if c = ';' then (TokKind.semicolon, ";") :: lexAux cs
    else if c = '+' then (TokKind.plus, "+") :: lexAux cs
    else if c = '=' then (TokKind.equal, "=") :: lexAux cs
    else if c = '(' then (TokKind.lpar, "(") :: lexAux cs
    else if c = ')' then (TokKind.rpar, ")") :: lexAux cs
    else if isSkipChar c then
      (TokKind.skip, String.mk (c :: cs.takeWhile isSkipChar)) ::
        lexAux (cs.dropWhile isSkipChar)
    else lexAux cs
termination_by l => l.length
decreasing_by
  all_goals first
    | exact Nat.lt_succ_of_le (dropWhile_length_le _ _)
    | (simp only [List.length_drop, List.length_cons]; omega)

/-- The token list of prgPythonPur.py line 25: the raw scan with the
SKIP matches filtered out. -/
def pyLex (s : String) : List (TokKind × String) :=
  (lexAux s.data).filter fun t => t.1 ≠ TokKind.skip

/-! Helper lemmas about the embedded definitions. -/

/-- prependOk yields ok exactly when its argument did, with the
statement consed onto the retained list. -/
lemma prependOk_ok_iff (s : Stmt) (r : Except SemErr (List Stmt × Table))
    (l2 : List Stmt) (t : Table) :
    prependOk s r = .ok (l2, t) ↔ ∃ l, r = .ok (l, t) ∧ l2 = s :: l := by
  cases r with
  | error e => simp [prependOk]
  | ok p =>
    obtain ⟨l, t1⟩ := p
    simp only [prependOk, Except.ok.injEq, Prod.mk.injEq]
    constructor
    · rintro ⟨h1, h2⟩
      exact ⟨l, ⟨rfl, h2⟩, h1.symm⟩
    · rintro ⟨l3, ⟨h1, h2⟩, h3⟩
      cases h1
      exact ⟨h3.symm, h2⟩

/-- A successful check run re-checks its own validated output from the
same starting table, reproducing both the output and the final table. -/
lemma checkFrom_pass : ∀ (ast : List Stmt) (st : Table) (ast2 : List Stmt) (t : Table),
    checkFrom st ast = .ok (ast2, t) → checkFrom st ast2 = .ok (ast2, t) := by
  intro ast
  induction ast with
  | nil =>
    intro st ast2 t h
    simp only [checkFrom, Except.ok.injEq, Prod.mk.injEq] at h
    obtain ⟨h1, h2⟩ := h
    subst h1; subst h2
    rfl
  | cons s rest ih =>
    intro st ast2 t h
    cases s with
    | sdecl vars =>
      simp only [checkFrom] at h
      cases hiv : insertVars st vars with
      | error e => rw [hiv] at h; simp at h
      | ok st1 =>
        rw [hiv] at h
        rw [prependOk_ok_iff] at h
        obtain ⟨l, hc, h2⟩ := h
        subst h2
        simp only [checkFrom, hiv, prependOk_ok_iff]
        exact ⟨l, ih st1 l t hc, rfl⟩
    | sassign x e =>
      simp only [checkFrom] at h
      by_cases hx : x ∈ tableKeys st
      · rw [if_pos hx, prependOk_ok_iff] at h
        obtain ⟨l, hc, h2⟩ := h
        subst h2
        simp only [checkFrom, if_pos hx, prependOk_ok_iff]
        exact ⟨l, ih st l t hc, rfl⟩
      · rw [if_neg hx] at h; simp at h
    | sprint n =>
      simp only [checkFrom] at h
      by_cases hn : n ∉ tableKeys st ∧ pyIsDigit n = false
      · rw [if_pos hn] at h; simp at h
      · rw [if_neg hn, prependOk_ok_iff] at h
        obtain ⟨l, hc, h2⟩ := h
        subst h2
        simp only [checkFrom, if_neg hn, prependOk_ok_iff]
        exact ⟨l, ih st l t hc, rfl⟩
    | swhile o l r body =>
      simp only [checkFrom] at h
      exact ih st ast2 t h

/-- Keys of an appended table. -/
lemma tableKeys_append (st l : Table) :
    tableKeys (st ++ l) = tableKeys st ++ tableKeys l := by
  simp [tableKeys]

/-- When the table keys and the declared names are jointly free of
duplicates, the declaration loop succeeds and appends every name with
type int, in order. -/
lemma insertVars_ok_of_nodup : ∀ (vars : List String) (st : Table),
    (tableKeys st ++ vars).Nodup →
    insertVars st vars = .ok (st ++ vars.map fun v => (v, "int")) := by
  intro vars
  induction vars with
  | nil => intro st h; simp [insertVars]
  | cons v vs ih =>
    intro st h
    have hv : v ∉ tableKeys st := by
      rcases List.nodup_append.mp h with ⟨-, -, hdisj⟩
      intro hmem
      exact hdisj hmem (List.mem_cons_self v vs)
    have h2 : (tableKeys (st ++ [(v, "int")]) ++ vs).Nodup := by
      rw [tableKeys_append]
      simpa [tableKeys, List.append_assoc] using h
    simp only [insertVars, if_neg hv]
    rw [ih _ h2]
    simp

/-- When some declared name is already a table key, the declaration
loop fails with a redeclaration error naming one of the declared
names. -/
lemma insertVars_err_of_mem : ∀ (vars : List String) (st : Table),
    (∃ v ∈ vars, v ∈ tableKeys st) →
    ∃ w ∈ vars, insertVars st vars = .error (.redeclared w) := by
  intro vars
  induction vars with
  | nil =>
    rintro st ⟨v, hv, -⟩
    cases hv
  | cons v vs ih =>
    rintro st ⟨u, hu, hust⟩
    by_cases hv : v ∈ tableKeys st
    · exact ⟨v, List.mem_cons_self v vs, by simp [insertVars, hv]⟩
    · have hu2 : u ∈ vs := by
        rcases List.mem_cons.mp hu with h | h
        · subst h; exact absurd hust hv
        · exact h
      have hust2 : u ∈ tableKeys (st ++ [(v, "int")]) := by
        rw [tableKeys_append]
        exact List.mem_append_left _ hust
      obtain ⟨w, hw, he⟩ := ih (st ++ [(v, "int")]) ⟨u, hu2, hust2⟩
      exact ⟨w, List.mem_cons_of_mem _ hw, by simp [insertVars, hv, he]⟩

/-- Every declared name starts at the runtime value 0 in the TP4
runtime. -/
lemma lookup_initEnv : ∀ (st : Table) (v : String), v ∈ tableKeys st →
    (initEnv st).lookup v = some 0 := by
  intro st
  induction st with
  | nil => intro v h; cases h
  | cons p rest ih =>
    obtain ⟨a, ty⟩ := p
    intro v h
    simp only [initEnv, List.map_cons, List.lookup]
    by_cases hv : v = a
    · simp [hv]
    · have h2 : v ∈ tableKeys rest := by
        rcases List.mem_cons.mp h with h1 | h1
        · exact absurd h1 hv
        · exact h1
      have hb : (v == a) = false := beq_eq_false_iff_ne.mpr hv
      simpa [hb] using ih v h2

/-- The key-conditional store never changes the key list. -/
lemma envKeys_setIfPresent (x : String) (v : ℚ) (env : Env) :
    envKeys (setIfPresent x v env) = envKeys env := by
  induction env with
  | nil => rfl
  | cons p rest ih =>
    simp only [setIfPresent, envKeys, List.map_cons] at ih ⊢
    by_cases hp : p.1 = x
    · simpa [hp] using ih
    · simpa [hp] using ih

/-- One step of the TP4 statement loop never changes the runtime key
list. -/
lemma execStmt_keys (s : Env × List ℚ) (stm : Stmt) :
    envKeys (execStmt s stm).1 = envKeys s.1 := by
  cases stm with
  | sassign x e => exact envKeys_setIfPresent x (evalExpr s.1 e) s.1
  | sdecl vars => rfl
  | sprint n => rfl
  | swhile o l r body => rfl

/-- The whole TP4 statement loop never changes the runtime key list. -/
lemma execStmts_keys : ∀ (ast : List Stmt) (s : Env × List ℚ),
    envKeys (execStmts ast s).1 = envKeys s.1 := by
  intro ast
  induction ast with
  | nil => intro s; rfl
  | cons stm rest ih =>
    intro s
    have h1 : execStmts (stm :: rest) s = execStmts rest (execStmt s stm) := rfl
    rw [h1, ih, execStmt_keys]

/-- The key-conditional store leaves every other key's binding
untouched. -/
lemma lookup_setIfPresent_ne (y x : String) (v : ℚ) (env : Env) (hyx : y ≠ x) :
    (setIfPresent x v env).lookup y = env.lookup y := by
  induction env with
  | nil => rfl
  | cons p rest ih =>
    obtain ⟨a, b⟩ := p
    simp only [setIfPresent, List.map_cons] at ih ⊢
    by_cases hp : a = x
    · rw [if_pos hp]
      have hb : (y == x) = false := beq_eq_false_iff_ne.mpr hyx
      have hb2 : (y == a) = false := beq_eq_false_iff_ne.mpr fun h => hyx (hp ▸ h)
      simp only [List.lookup_cons, hb, hb2]
      exact ih
    · rw [if_neg hp]
      by_cases hy : y = a
      · simp only [List.lookup_cons, hy, beq_self_eq_true]
      · have hb : (y == a) = false := beq_eq_false_iff_ne.mpr hy
        simp only [List.lookup_cons, hb]
        exact ih

/-- Storing under a key absent from the runtime is a no-op. -/
lemma setIfPresent_absent (x : String) (v : ℚ) (env : Env) (h : x ∉ envKeys env) :
    setIfPresent x v env = env := by
  induction env with
  | nil => rfl
  | cons p rest ih =>
    obtain ⟨a, b⟩ := p
    simp only [envKeys, List.map_cons, List.mem_cons] at h
    push_neg at h
    obtain ⟨h1, h2⟩ := h
    simp only [setIfPresent, List.map_cons]
    rw [if_neg fun hh => h1 hh.symm]
    have h3 : setIfPresent x v rest = rest := ih (by simpa [envKeys] using h2)
    simp only [setIfPresent] at h3
    rw [h3]

/-! Claim theorems. -/

/-- Claim C1: for every evaluation of a division expression whose
right operand evaluates to 0, the TP4 evaluator returns the integer 0
and raises no error (eval_expr is a total function in this model); in
particular executing the AST of the program int a; a = 10 / 0;
completes with a bound to 0. -/
theorem c1_div_by_zero :
    (∀ (env : Env) (l r : Expr), evalExpr env r = 0 →
      evalExpr env (.bin .div l r) = 0) ∧
    List.lookup "a"
      (execStmts [.sdecl ["a"], .sassign "a" (.bin .div (.num 10) (.num 0))]
        (initEnv [("a", "int")], [])).1 = some 0 := by
  constructor
  · intro env l r h
    simp [evalExpr, h]
  · norm_num [execStmts, execStmt, evalExpr, initEnv, setIfPresent, List.lookup]

/-- Claim C1 witness: the division 10 / 0 itself evaluates to 0. -/
theorem c1_div_by_zero_witness :
    evalExpr [] (.bin .div (.num 10) (.num 0)) = 0 :=
  c1_div_by_zero.1 [] (.num 10) (.num 0) (by norm_num [evalExpr])

/-- Claim C2 counterexample: semantic analysis succeeds on the AST of
int x; x = y; even though the Variable y on the right-hand side is
absent from the symbol table, instead of failing with
UndeclaredVariable y as the claim requires for every Variable
reference. -/
theorem c2_counterexample :
    semCheck [.sdecl ["x"], .sassign "x" (.var "y")] =
      .ok ([.sdecl ["x"], .sassign "x" (.var "y")], [("x", "int")]) := rfl

/-- Claim C2 amended: the checker examines only the target name of an
Assignment: an absent target fails with UndeclaredVariable(target),
and when the target is declared the right-hand side is never examined,
so variables inside it cannot cause an error; in particular y = 3;
with no prior declaration fails with UndeclaredVariable y. -/
theorem c2_target_only :
    ∀ (st : Table) (y : String) (e : Expr) (rest : List Stmt),
    (y ∉ tableKeys st →
      checkFrom st (.sassign y e :: rest) = .error (.undeclaredVar y)) ∧
    (y ∈ tableKeys st →
      checkFrom st (.sassign y e :: rest) =
        prependOk (.sassign y e) (checkFrom st rest)) ∧
    semCheck [.sassign "y" (.num 3)] = .error (.undeclaredVar "y") := by
  intro st y e rest
  refine ⟨fun h => ?_, fun h => ?_, rfl⟩
  · simp [checkFrom, h]
  · simp [checkFrom, h]

/-- Claim C2 witness: both branches of the amended statement at
concrete inputs. -/
theorem c2_target_only_witness :
    checkFrom [] [.sassign "y" (.num 3)] = .error (.undeclaredVar "y") ∧
    checkFrom [("x", "int")] [.sassign "x" (.num 3)] =
      prependOk (.sassign "x" (.num 3)) (checkFrom [("x", "int")] []) :=
  ⟨(c2_target_only [] "y" (.num 3) []).1 (by decide),
   (c2_target_only [("x", "int")] "x" (.num 3) []).2.1 (by decide)⟩

/-- Claim C3 counterexample: in the prgPythonPur evaluator the runtime
value of the declared, never-assigned variable x is None rather than
the integer 0, and executing its AST of int x; print(x); emits None. -/
theorem c3_counterexample :
    prgExec [.pdecl ["x"], .pprint "x"] (prgInitEnv [("x", "int")], []) =
      .ok ([("x", none)], [none]) ∧ (none : Option Int) ≠ some 0 :=
  ⟨rfl, by decide⟩

/-- Claim C3 amended: in the TP4 evaluator every declared name starts
at the integer 0 and int x; print(x); outputs 0 there; the prgPythonPur
evaluator instead initializes every declared name to None. -/
theorem c3_default_zero :
    (∀ (st : Table) (v : String), v ∈ tableKeys st →
      (initEnv st).lookup v = some 0) ∧
    (execStmts [.sdecl ["x"], .sprint "x"] (initEnv [("x", "int")], [])).2 =
      [(0 : ℚ)] := by
  refine ⟨lookup_initEnv, ?_⟩
  norm_num [execStmts, execStmt, evalExpr, initEnv, List.lookup]

/-- Claim C3 witness: the declared name x starts at 0 in the TP4
runtime built from its symbol table. -/
theorem c3_default_zero_witness :
    (initEnv [("x", "int")]).lookup "x" = some 0 :=
  c3_default_zero.1 [("x", "int")] "x" (by decide)

/-- Claim C4 counterexample: 7 / 2 does not evaluate to the integer 3;
its value has denominator 2, so it is not an integer at all (TP4.py
line 142 uses Python true division, not integer division). -/
theorem c4_counterexample :
    evalExpr [] (.bin .div (.num 7) (.num 2)) ≠ 3 ∧
    (evalExpr [] (.bin .div (.num 7) (.num 2))).den = 2 := by
  constructor
  · simp only [evalExpr]
    norm_num
  · norm_num [evalExpr]

/-- Claim C4 amended: evaluating 7 / 2 performs Python true division,
not integer division: the result is 3.5, the exact value Python
returns here since 3.5 is exactly representable in binary64. -/
theorem c4_not_integer_division :
    evalExpr [] (.bin .div (.num 7) (.num 2)) = 7 / 2 := by
  norm_num [evalExpr]

/-- Claim C5: processing a Declaration fails with Redeclared(name) as
soon as a declared name is already a table key, and otherwise inserts
every name with type int; in particular int x; int x; fails with
Redeclared x. -/
theorem c5_redeclaration :
    ∀ (st : Table) (vars : List String),
    ((tableKeys st ++ vars).Nodup →
      insertVars st vars = .ok (st ++ vars.map fun v => (v, "int"))) ∧
    ((∃ v ∈ vars, v ∈ tableKeys st) →
      ∃ w ∈ vars, insertVars st vars = .error (.redeclared w)) ∧
    semCheck [.sdecl ["x"], .sdecl ["x"]] = .error (.redeclared "x") := by
  intro st vars
  exact ⟨insertVars_ok_of_nodup vars st, insertVars_err_of_mem vars st, rfl⟩

/-- Claim C5 witness: a fresh declaration of x and y inserts both with
type int, and re-declaring x over a table holding x fails with a
redeclaration error. -/
theorem c5_redeclaration_witness :
    insertVars [] ["x", "y"] = .ok [("x", "int"), ("y", "int")] ∧
    ∃ w ∈ ["x"], insertVars [("x", "int")] ["x"] = .error (.redeclared w) :=
  ⟨by simpa using (c5_redeclaration [] ["x", "y"]).1 (by decide),
   (c5_redeclaration [("x", "int")] ["x"]).2.1 ⟨"x", by decide, by decide⟩⟩

/-- The AST of int i; i = 0; while (i < 3) ... with the while tuple as
analyse2.py builds it; only claim C6 uses it. -/
def whileProgAst : List Stmt :=
  [.sdecl ["i"], .sassign "i" (.num 0),
   .swhile .clt (.var "i") (.num 3)
     [.sprint "i", .sassign "i" (.bin .add (.var "i") (.num 1))]]

/-- Claim C6 counterexample: executing the AST of the while program
with the repository evaluator produces no output at all, not the
sequence 0, 1, 2: TP4 execute recognizes only assign and print tags
and silently skips the while node, and no other variant executes
anything. -/
theorem c6_counterexample :
    (execStmts whileProgAst (initEnv [("i", "int")], [])).2 = [] ∧
    ([] : List ℚ) ≠ [0, 1, 2] := by
  constructor
  · norm_num [whileProgAst, execStmts, execStmt, evalExpr, initEnv, setIfPresent]
  · simp

/-- Claim C6 amended: the TP4 evaluator skips a While node entirely,
never evaluating its condition or body, so the while program leaves i
at 0 and prints nothing; no code in the repository executes While
nodes (analyse2 parses while but has no evaluation phase). -/
theorem c6_while_skipped :
    (∀ (o : Cmp) (l r : Expr) (body rest : List Stmt) (s : Env × List ℚ),
      execStmts (.swhile o l r body :: rest) s = execStmts rest s) ∧
    execStmts whileProgAst (initEnv [("i", "int")], []) = ([("i", 0)], []) := by
  constructor
  · intro o l r body rest s
    rfl
  · norm_num [whileProgAst, execStmts, execStmt, evalExpr, initEnv, setIfPresent]

/-- Claim C7 counterexample: lexing a@b raises no error: the lexer
silently drops the unmatched character and still produces the token
after it, and lexing the single unmatched character gives the empty
token list rather than a failure. -/
theorem c7_counterexample :
    pyLex "a@b" = [(TokKind.id, "a"), (TokKind.id, "b")] ∧ pyLex "@" = [] := by
  constructor
  · simp +decide [pyLex, lexAux, isWordChar, isSkipChar]
  · simp +decide [pyLex, lexAux, isWordChar, isSkipChar]

/-- Claim C7 amended: when no token pattern matches at the current
character, the regex scan of prgPythonPur silently skips that
character and continues lexing the rest; no LexError exists and no
token is lost after the bad character. -/
theorem c7_lexer_skips :
    ∀ (c : Char) (cs : List Char), c.isDigit = false → c.isAlpha = false →
      c ≠ '_' → c ≠ ',' → c ≠ ';' → c ≠ '+' → c ≠ '=' → c ≠ '(' → c ≠ ')' →
      isSkipChar c = false → lexAux (c :: cs) = lexAux cs := by
  intro c cs h1 h2 h3 h4 h5 h6 h7 h8 h9 h10
  have hi : ¬(c = 'i' ∧ cs.take 2 = ['n', 't']) := by
    rintro ⟨rfl, -⟩
    simp at h2
  have hp : ¬(c = 'p' ∧ cs.take 4 = ['r', 'i', 'n', 't']) := by
    rintro ⟨rfl, -⟩
    simp at h2
  rw [lexAux]
  simp [h1, h2, h3, h4, h5, h6, h7, h8, h9, h10, hi, hp]

/-- Claim C7 witness: the skip step at the concrete unmatched
character. -/
theorem c7_lexer_skips_witness : lexAux ['@', 'b'] = lexAux ['b'] :=
  c7_lexer_skips '@' ['b'] (by decide) (by decide) (by decide) (by decide)
    (by decide) (by decide) (by decide) (by decide) (by decide) (by decide)

/-- Claim C8: one pipeline run of semantic analysis is a pure function
of the AST, so two runs on the same AST return the same table; and the
analysis is idempotent: re-running it on its own validated output
reproduces exactly the same output and symbol table. -/
theorem c8_idempotent :
    ∀ ast : List Stmt,
      semCheck ast = semCheck ast ∧
      ∀ (ast2 : List Stmt) (t : Table), semCheck ast = .ok (ast2, t) →
        semCheck ast2 = .ok (ast2, t) := by
  intro ast
  exact ⟨rfl, fun ast2 t h => checkFrom_pass ast [] ast2 t h⟩

/-- Claim C8 witness: idempotence at a concrete program. -/
theorem c8_idempotent_witness :
    semCheck [.sdecl ["x"], .sassign "x" (.num 1)] =
      .ok ([.sdecl ["x"], .sassign "x" (.num 1)], [("x", "int")]) :=
  (c8_idempotent [.sdecl ["x"], .sassign "x" (.num 1)]).2
    [.sdecl ["x"], .sassign "x" (.num 1)] [("x", "int")] rfl

/-- Claim C9: the runtime key set equals the symbol table key set
after initialization and stays equal after every executed statement:
initialization copies exactly the table keys and no statement ever
adds or removes a runtime key. -/
theorem c9_env_keys :
    (∀ st : Table, envKeys (initEnv st) = tableKeys st) ∧
    (∀ (s : Env × List ℚ) (stm : Stmt), envKeys (execStmt s stm).1 = envKeys s.1) ∧
    (∀ (ast : List Stmt) (st : Table),
      envKeys (execStmts ast (initEnv st, [])).1 = tableKeys st) := by
  have hinit : ∀ st : Table, envKeys (initEnv st) = tableKeys st := by
    intro st
    simp [envKeys, initEnv, tableKeys]
  refine ⟨hinit, execStmt_keys, fun ast st => ?_⟩
  rw [execStmts_keys ast (initEnv st, [])]
  exact hinit st

/-- Claim C10: executing one Assignment changes at most the binding of
its target: every other name keeps its value, a target absent from the
runtime leaves the environment entirely unchanged, and no output or
error is produced. -/
theorem c10_assign_frame :
    ∀ (x : String) (e : Expr) (env : Env) (out : List ℚ),
    (∀ y, y ≠ x →
      List.lookup y (execStmt (env, out) (.sassign x e)).1 = List.lookup y env) ∧
    (x ∉ envKeys env → (execStmt (env, out) (.sassign x e)).1 = env) ∧
    (execStmt (env, out) (.sassign x e)).2 = out := by
  intro x e env out
  refine ⟨fun y hy => ?_, fun h => ?_, rfl⟩
  · exact lookup_setIfPresent_ne y x (evalExpr env e) env hy
  · exact setIfPresent_absent x (evalExpr env e) env h

/-- Claim C10 witness: assigning to the absent target b leaves the
binding of a and the whole environment unchanged. -/
theorem c10_assign_frame_witness :
    List.lookup "a" (execStmt ([("a", (1 : ℚ))], []) (.sassign "b" (.num 5))).1 =
      List.lookup "a" [("a", (1 : ℚ))] ∧
    (execStmt ([("a", (1 : ℚ))], []) (.sassign "b" (.num 5))).1 = [("a", (1 : ℚ))] := by
  have h := c10_assign_frame "b" (.num 5) [("a", (1 : ℚ))] []
  exact ⟨h.1 "a" (by decide), h.2.1 (by simp [envKeys])⟩

end MiniPython
